import Mathlib

/-!
Verification of the go-chaff request tracker (github.com/mikehelmick/go-chaff).

The repository ships two revisions of the tracker: an older one
(`tracker.go`, `int64`/`int` sample fields, no `Responder` argument) and a
newer one (`uint64` sample fields, a pluggable `Responder`, `RandomData`,
`normalizeLatnecy`, `NewTracker(resp, cap)`).  The circular-buffer logic
(`recordRequest`, `CalculateProfile`) is identical in both; where the
revisions differ the definitions below model each revision separately and
say which one they come from.

Machine integers are modelled as `Nat`/`Int` with explicit reduction
modulo `2 ^ 64` (Go `uint64`) or wrap into `[-2^63, 2^63)` (Go `int64`)
at every operation where Go would overflow.
-/

namespace Chaff

/-- `2 ^ 64`, the modulus of Go's `uint64` arithmetic. -/
def U64 : ℕ := 18446744073709551616

/-- Go `uint64` subtraction `a - b` (wraps modulo `2 ^ 64`) for `a b < 2^64`. -/
def subU64 (a b : ℕ) : ℕ := (a + U64 - b % U64) % U64

/-- Wrap an integer into Go's `int64` range `[-2^63, 2^63)`;
this is the result of any Go `int64` operation producing `x`. -/
def wrapI64 (x : ℤ) : ℤ := (x + 9223372036854775808) % 18446744073709551616 - 9223372036854775808

/-- Go conversion `int64(u)` of a `uint64` value `u < 2^64`. -/
def toI64 (u : ℕ) : ℤ := if u < 9223372036854775808 then (u : ℤ) else (u : ℤ) - 18446744073709551616

/-- `type request struct` (newer revision: all three fields `uint64`).
Field values are naturals `< 2^64`. -/
structure Request where
  latencyMs : ℕ
  bodySize : ℕ
  headerSize : ℕ
deriving DecidableEq, Repr

/-- The mutable circular-buffer portion of `type Tracker struct`:
`buffer []*request`, `size`, `cap` and `pos`. -/
structure TrackerState where
  buffer : List Request
  size : ℕ
  cap : ℕ
  pos : ℕ
deriving DecidableEq, Repr

/-- The buffer state built by `NewTracker`:
`buffer: make([]*request, 0, cap), size: 0, cap: cap, pos: 0`. -/
def newTrackerState (cap : ℕ) : TrackerState :=
  { buffer := [], size := 0, cap := cap, pos := 0 }

/-- `func (t *Tracker) recordRequest(record *request)`: if `size < cap`,
append and increment `size`; otherwise overwrite `buffer[pos]` and advance
`pos` to `(pos + 1) % cap`. -/
def recordRequest (t : TrackerState) (record : Request) : TrackerState :=
  if t.size < t.cap then
    { t with buffer := t.buffer ++ [record], size := t.size + 1 }
  else
    { t with buffer := t.buffer.set t.pos record, pos := (t.pos + 1) % t.cap }

/-- The tracker state after recording the samples of `l` in order into a
fresh tracker of capacity `cap`. -/
def runTracker (cap : ℕ) (l : List Request) : TrackerState :=
  l.foldl recordRequest (newTrackerState cap)

/-- Go `uint64` addition. -/
def addU64 (a b : ℕ) : ℕ := (a + b) % U64

/-- A running `uint64` sum (`latency += r.latencyMs` etc. in
`CalculateProfile`), each addition reducing modulo `2 ^ 64`. -/
def sumU64 (l : List ℕ) : ℕ := l.foldl addU64 0

/-- `func (t *Tracker) CalculateProfile() *request` (newer revision,
`uint64` arithmetic): the all-zero request when `size == 0`, otherwise the
field-wise `uint64` sums over the buffer divided by `size`. -/
def CalculateProfile (t : TrackerState) : Request :=
  if t.size = 0 then
    { latencyMs := 0, bodySize := 0, headerSize := 0 }
  else
    let latency := sumU64 (t.buffer.map Request.latencyMs)
    let hSize := sumU64 (t.buffer.map Request.headerSize)
    let bSize := sumU64 (t.buffer.map Request.bodySize)
    { latencyMs := latency / t.size
      bodySize := bSize / t.size
      headerSize := hSize / t.size }

theorem sumU64_go (l : List ℕ) (acc : ℕ) :
    l.foldl addU64 (acc % U64) = (acc + l.sum) % U64 := by
  induction l generalizing acc with
  | nil => simp
  | cons b tl ih =>
    have h1 : addU64 (acc % U64) b = (acc + b) % U64 := by
      simp [addU64, Nat.mod_add_mod]
    simp only [List.foldl_cons, h1]
    rw [ih (acc + b)]
    simp [Nat.add_assoc]

theorem sumU64_eq_sum_mod (l : List ℕ) : sumU64 l = l.sum % U64 := by
  have := sumU64_go l 0
  simpa [sumU64] using this

theorem set_append_length {α : Type} (l1 l2 : List α) (x : α) :
    (l1 ++ l2).set l1.length x = l1 ++ l2.set 0 x := by
  induction l1 with
  | nil => simp
  | cons a tl ih => simp [ih]

theorem set_append_idx {α : Type} (l1 l2 : List α) (x : α) (i : ℕ) (h : i = l1.length) :
    (l1 ++ l2).set i x = l1 ++ l2.set 0 x := by
  subst h; exact set_append_length l1 l2 x

theorem tail_take_eq {α : Type} (l : List α) (n : ℕ) :
    (l.take n).tail = l.tail.take (n - 1) := by
  cases l <;> cases n <;> simp

theorem runTracker_append (cap : ℕ) (l : List Request) (s : Request) :
    runTracker cap (l ++ [s]) = recordRequest (runTracker cap l) s := by
  simp [runTracker, List.foldl_append]

/-- The reachable-state invariant of the circular buffer: after recording
the samples of `l` into a fresh tracker of capacity `cap ≥ 1`, `cap` is
unchanged, `size = min l.length cap`, and the buffer and cursor are, while
below capacity, exactly `l` with the cursor still at 0, and, once at
capacity, a rotation of the most recent `cap` samples with the cursor at
`(l.length - cap) % cap`. -/
theorem runTracker_inv (cap : ℕ) (hc : 1 ≤ cap) (l : List Request) :
    (runTracker cap l).cap = cap ∧
    (runTracker cap l).size = min l.length cap ∧
    (l.length ≤ cap → (runTracker cap l).pos = 0 ∧ (runTracker cap l).buffer = l) ∧
    (cap ≤ l.length →
      (runTracker cap l).pos = (l.length - cap) % cap ∧
      (runTracker cap l).buffer =
        l.drop (l.length - (l.length - cap) % cap) ++
          (l.drop (l.length - cap)).take (cap - (l.length - cap) % cap)) := by
  induction l using List.reverseRecOn with
  | nil =>
    refine ⟨rfl, by simp [runTracker, newTrackerState], fun _ => ⟨rfl, rfl⟩, fun h0 => ?_⟩
    simp only [List.length_nil, Nat.le_zero] at h0
    omega
  | append_singleton l s ih =>
    obtain ⟨hcap, hsize, hlt, hge⟩ := ih
    set t := runTracker cap l with ht
    set n := l.length with hn
    have hlen1 : (l ++ [s]).length = n + 1 := by simp [hn]
    rw [runTracker_append]
    by_cases hbelow : n < cap
    · -- below capacity: recordRequest appends
      have hsz : t.size = n := by rw [hsize]; omega
      obtain ⟨hpos0, hbuf0⟩ := hlt (Nat.le_of_lt hbelow)
      have hstep : recordRequest t s = { t with buffer := t.buffer ++ [s], size := t.size + 1 } := by
        rw [recordRequest, if_pos (by rw [hsz, hcap]; exact hbelow)]
      rw [hstep]
      refine ⟨hcap, ?_, fun _ => ⟨hpos0, by rw [hbuf0]⟩, fun hgen => ?_⟩
      · show t.size + 1 = min (l ++ [s]).length cap
        rw [hsz, hlen1]; omega
      · -- this can only happen when n + 1 = cap
        have heq : cap = n + 1 := by rw [hlen1] at hgen; omega
        constructor
        · show t.pos = ((l ++ [s]).length - cap) % cap
          rw [hlen1, heq, Nat.sub_self, Nat.zero_mod, hpos0]
        · show t.buffer ++ [s] = _
          have hd0 : List.drop (n + 1) (l ++ [s]) = [] :=
            List.drop_of_length_le (le_of_eq hlen1)
          have ht0 : List.take (n + 1) (l ++ [s]) = l ++ [s] :=
            List.take_of_length_le (le_of_eq hlen1)
          rw [hbuf0, hlen1, heq, Nat.sub_self, Nat.zero_mod, Nat.sub_zero, List.drop_zero,
            hd0, ht0, List.nil_append]
    · -- at capacity: recordRequest overwrites at the cursor
      have hcapn : cap ≤ n := Nat.le_of_not_lt hbelow
      have hsz : t.size = cap := by rw [hsize]; omega
      obtain ⟨hpos, hbuf⟩ := hge hcapn
      set k := n - cap with hk
      set p := k % cap with hp
      have hpcap : p < cap := Nat.mod_lt _ (by omega)
      have hpk : p ≤ k := Nat.mod_le _ _
      have hkn : k ≤ n := by omega
      have hstep : recordRequest t s =
          { t with buffer := t.buffer.set t.pos s, pos := (t.pos + 1) % t.cap } := by
        rw [recordRequest, if_neg (by rw [hsz, hcap]; omega)]
      rw [hstep]
      have hdm := Nat.div_add_mod k cap
      have hposmod : (p + 1) % cap = (k + 1) % cap := by
        conv_rhs => rw [show k + 1 = p + 1 + cap * (k / cap) by omega]
        rw [Nat.add_mul_mod_self_left]
      have hlenA : (l.drop (n - p)).length = p := by
        rw [List.length_drop]; omega
      have hlenD : (l.drop k).length = cap := by
        rw [List.length_drop]; omega
      have hbuf' : t.buffer.set t.pos s =
          l.drop (n - p) ++ [s] ++ (l.drop (k + 1)).take (cap - p - 1) := by
        rw [hbuf, hpos, set_append_idx _ _ _ _ hlenA.symm]
        have hBne : (l.drop k).take (cap - p) ≠ [] := by
          intro hcon
          have := congrArg List.length hcon
          simp only [List.length_take, hlenD, List.length_nil] at this
          omega
        obtain ⟨b, B', hB⟩ := List.exists_cons_of_ne_nil hBne
        rw [hB]
        have hB' : B' = (l.drop (k + 1)).take (cap - p - 1) := by
          have := congrArg List.tail hB
          simp only [List.tail_cons] at this
          rw [← this, tail_take_eq, List.tail_drop]
        rw [List.set_cons_zero, hB', List.append_assoc, List.singleton_append]
      refine ⟨hcap, ?_, fun hle => ?_, fun _ => ?_⟩
      · show t.size = min (l ++ [s]).length cap
        rw [hsz, hlen1]; omega
      · exfalso; rw [hlen1] at hle; omega
      · have hk1 : n + 1 - cap = k + 1 := by omega
        constructor
        · show (t.pos + 1) % t.cap = ((l ++ [s]).length - cap) % cap
          rw [hpos, hcap, hlen1, hk1]; exact hposmod
        · show t.buffer.set t.pos s = _
          rw [hbuf', hlen1, hk1, ← hposmod]
          by_cases hfull : p + 1 = cap
          · -- the cursor wraps to 0
            have hmod0 : (p + 1) % cap = 0 := by rw [hfull, Nat.mod_self]
            rw [hmod0, Nat.sub_zero, Nat.sub_zero]
            have h1 : (l ++ [s]).drop (n + 1) = [] :=
              List.drop_of_length_le (le_of_eq hlen1)
            have h2 : (l ++ [s]).drop (k + 1) = l.drop (k + 1) ++ [s] := by
              rw [List.drop_append_eq_append_drop, show k + 1 - l.length = 0 by omega,
                List.drop_zero]
            have hlb : (l.drop (k + 1) ++ [s]).length ≤ cap := by
              rw [List.length_append, List.length_drop, List.length_singleton]
              omega
            have h3 : (l.drop (k + 1) ++ [s]).take cap = l.drop (k + 1) ++ [s] :=
              List.take_of_length_le hlb
            rw [h1, h2, h3, List.nil_append]
            rw [show n - p = k + 1 by omega, show cap - p - 1 = 0 by omega, List.take_zero,
              List.append_nil]
          · have hmod : (p + 1) % cap = p + 1 := Nat.mod_eq_of_lt (by omega)
            rw [hmod]
            have e1 : (l ++ [s]).drop (n + 1 - (p + 1)) = l.drop (n - p) ++ [s] := by
              rw [show n + 1 - (p + 1) = n - p by omega, List.drop_append_eq_append_drop,
                show n - p - l.length = 0 by omega, List.drop_zero]
            have e2 : (l ++ [s]).drop (k + 1) = l.drop (k + 1) ++ [s] := by
              rw [List.drop_append_eq_append_drop, show k + 1 - l.length = 0 by omega,
                List.drop_zero]
            have e0 : cap - (p + 1) - (l.drop (k + 1)).length = 0 := by
              rw [List.length_drop]; omega
            have e3 : (l.drop (k + 1) ++ [s]).take (cap - (p + 1)) =
                (l.drop (k + 1)).take (cap - (p + 1)) := by
              rw [List.take_append_eq_append_take, e0, List.take_zero, List.append_nil]
            rw [e1, e2, e3, show cap - (p + 1) = cap - p - 1 by omega]

/-- After any sequence of inserts the buffer holds exactly (as a
permutation) the most recent `min l.length cap` samples, i.e. the suffix
`l.drop (l.length - cap)` of the insertion sequence. -/
theorem runTracker_buffer_perm (cap : ℕ) (hc : 1 ≤ cap) (l : List Request) :
    (runTracker cap l).buffer.Perm (l.drop (l.length - cap)) := by
  obtain ⟨_, _, hlt, hge⟩ := runTracker_inv cap hc l
  by_cases hle : l.length ≤ cap
  · rw [(hlt hle).2, show l.length - cap = 0 by omega, List.drop_zero]
  · have hcapn : cap ≤ l.length := by omega
    obtain ⟨_, hbuf⟩ := hge hcapn
    rw [hbuf]
    set n := l.length with hn
    set k := n - cap with hk
    set p := k % cap with hp
    have hpcap : p < cap := Nat.mod_lt _ (by omega)
    have hpk : p ≤ k := Nat.mod_le _ _
    have hsplit : l.drop (n - p) = (l.drop k).drop (cap - p) := by
      rw [List.drop_drop, show k + (cap - p) = n - p by omega]
    rw [hsplit]
    exact (List.perm_append_comm.trans (by rw [List.take_append_drop]))

/-- The window of the most recent `min l.length cap` samples. -/
def recentWindow (cap : ℕ) (l : List Request) : List Request :=
  l.drop (l.length - cap)

theorem recentWindow_length (cap : ℕ) (l : List Request) :
    (recentWindow cap l).length = min l.length cap := by
  rw [recentWindow, List.length_drop]; omega

theorem sum_lt_U64 (g : List ℕ) (hlen : g.length ≤ 100)
    (hb : ∀ x ∈ g, x < 144115188075855872) : g.sum < U64 := by
  have h1 : g.sum ≤ g.length * 144115188075855871 := by
    induction g with
    | nil => simp
    | cons a tl ih =>
      have ha : a ≤ 144115188075855871 := by
        have := hb a (by simp)
        omega
      have htl : tl.sum ≤ tl.length * 144115188075855871 :=
        ih (by simp at hlen ⊢; omega) (fun x hx => hb x (by simp [hx]))
      simp only [List.sum_cons, List.length_cons]
      calc a + tl.sum ≤ 144115188075855871 + tl.length * 144115188075855871 := by omega
        _ = (tl.length + 1) * 144115188075855871 := by ring
  have h2 : g.length * 144115188075855871 ≤ 100 * 144115188075855871 :=
    Nat.mul_le_mul_right _ hlen
  rw [U64]; omega

/-- The per-field `uint64` sum over the buffer equals the plain sum over
the recent window, provided the window's field values are small enough
that the running `uint64` sum cannot wrap (each field below `2^57` and at
most 100 summands). -/
theorem profile_field_sum (cap : ℕ) (hc1 : 1 ≤ cap) (hc2 : cap ≤ 100) (l : List Request)
    (f : Request → ℕ) (hb : ∀ r ∈ l, f r < 144115188075855872) :
    sumU64 ((runTracker cap l).buffer.map f) = ((recentWindow cap l).map f).sum := by
  have hperm : ((runTracker cap l).buffer.map f).Perm ((recentWindow cap l).map f) :=
    (runTracker_buffer_perm cap hc1 l).map f
  rw [sumU64_eq_sum_mod, hperm.sum_eq]
  apply Nat.mod_eq_of_lt
  apply sum_lt_U64
  · rw [List.length_map, recentWindow_length]; omega
  · intro x hx
    obtain ⟨r, hr, hfx⟩ := List.mem_map.mp hx
    have hrl : r ∈ l := List.mem_of_mem_drop hr
    rw [← hfx]
    exact hb r hrl

/-- Claim C1: for every capacity `c` in `[1,100]` and every sequence of
samples recorded into the tracker, `CalculateProfile` returns a profile
whose `latencyMs`, `headerSize` and `bodySize` each equal the
integer-truncated arithmetic mean of that field over the most recent
`min(n, c)` recorded samples, and for `n = 0` the all-zero profile.  The
field bound `2^57` keeps the `uint64` running sums of at most 100
summands below `2^64` (every really observable sample satisfies it). -/
theorem C1_calculateProfile_mean (cap : ℕ) (hc1 : 1 ≤ cap) (hc2 : cap ≤ 100)
    (l : List Request)
    (hb : ∀ r ∈ l, r.latencyMs < 144115188075855872 ∧ r.bodySize < 144115188075855872 ∧
      r.headerSize < 144115188075855872) :
    (l = [] →
      CalculateProfile (runTracker cap l) = { latencyMs := 0, bodySize := 0, headerSize := 0 }) ∧
    (l ≠ [] →
      (recentWindow cap l).length = min l.length cap ∧
      CalculateProfile (runTracker cap l) =
        { latencyMs :=
            ((recentWindow cap l).map Request.latencyMs).sum / (recentWindow cap l).length
          bodySize :=
            ((recentWindow cap l).map Request.bodySize).sum / (recentWindow cap l).length
          headerSize :=
            ((recentWindow cap l).map Request.headerSize).sum / (recentWindow cap l).length }) := by
  constructor
  · intro h
    subst h
    simp [runTracker, newTrackerState, CalculateProfile]
  · intro hne
    refine ⟨recentWindow_length cap l, ?_⟩
    have hsize : (runTracker cap l).size = min l.length cap := (runTracker_inv cap hc1 l).2.1
    have hlpos : 0 < l.length := List.length_pos.mpr hne
    have hszpos : ¬(runTracker cap l).size = 0 := by rw [hsize]; omega
    have hlat := profile_field_sum cap hc1 hc2 l Request.latencyMs (fun r hr => (hb r hr).1)
    have hbody := profile_field_sum cap hc1 hc2 l Request.bodySize (fun r hr => (hb r hr).2.1)
    have hhead := profile_field_sum cap hc1 hc2 l Request.headerSize (fun r hr => (hb r hr).2.2)
    simp only [CalculateProfile, if_neg hszpos]
    rw [hlat, hbody, hhead, hsize, ← recentWindow_length cap l]

/-- Witness for C1 at capacity 2 and three samples: the profile is the
truncated mean of the two most recent samples. -/
theorem C1_calculateProfile_mean_witness :
    CalculateProfile (runTracker 2 [⟨1, 2, 3⟩, ⟨5, 6, 7⟩, ⟨9, 10, 11⟩]) =
      { latencyMs := 7, bodySize := 8, headerSize := 9 } := by
  have h := (C1_calculateProfile_mean 2 (by norm_num) (by norm_num)
    [⟨1, 2, 3⟩, ⟨5, 6, 7⟩, ⟨9, 10, 11⟩] (by decide)).2 (by decide)
  rw [h.2]
  decide

/-- Claim C4: under every `recordRequest` on a reachable state, an insert
below capacity appends and increments the count, an insert at capacity
overwrites the buffer slot at the cursor and advances the cursor modulo
the capacity, and (before as after the insert) the buffer holds exactly
the most recent `min(count, capacity)` samples. -/
theorem C4_insert_invariant (cap : ℕ) (hc : 1 ≤ cap) (l : List Request) (s : Request) :
    ((runTracker cap l).size < cap →
      recordRequest (runTracker cap l) s =
        { runTracker cap l with
          buffer := (runTracker cap l).buffer ++ [s]
          size := (runTracker cap l).size + 1 }) ∧
    ((runTracker cap l).size = cap →
      recordRequest (runTracker cap l) s =
        { runTracker cap l with
          buffer := (runTracker cap l).buffer.set (runTracker cap l).pos s
          pos := ((runTracker cap l).pos + 1) % cap }) ∧
    (runTracker cap l).buffer.Perm (recentWindow cap l) ∧
    (recordRequest (runTracker cap l) s).buffer.Perm (recentWindow cap (l ++ [s])) := by
  have hcap : (runTracker cap l).cap = cap := (runTracker_inv cap hc l).1
  refine ⟨fun hlt => ?_, fun heq => ?_, runTracker_buffer_perm cap hc l, ?_⟩
  · rw [recordRequest, if_pos (by rw [hcap]; exact hlt)]
  · rw [recordRequest, if_neg (by rw [hcap, heq]; omega)]
    simp [hcap]
  · rw [← runTracker_append]
    exact runTracker_buffer_perm cap hc (l ++ [s])

/-- Witness for C4 at capacity 1: inserting a second sample leaves a
buffer holding exactly the most recent sample. -/
theorem C4_insert_invariant_witness :
    (recordRequest (runTracker 1 [⟨1, 1, 1⟩]) ⟨2, 2, 2⟩).buffer.Perm
      (recentWindow 1 [⟨1, 1, 1⟩, ⟨2, 2, 2⟩]) :=
  (C4_insert_invariant 1 (by norm_num) [⟨1, 1, 1⟩] ⟨2, 2, 2⟩).2.2.2

/-- Counterexample to claim C8: at capacity 2, after the samples
`{0,0,0}, {0,0,0}` the third insert `{1,1,1}` overwrites the oldest
`{0,0,0}` and differs from it, yet the snapshot (integer-truncated mean)
after the third insert equals the snapshot after the first two. -/
theorem C8_counterexample :
    (Request.mk 1 1 1 ≠ Request.mk 0 0 0) ∧
    (runTracker 2 [Request.mk 0 0 0, Request.mk 0 0 0, Request.mk 1 1 1]).buffer =
      [Request.mk 1 1 1, Request.mk 0 0 0] ∧
    CalculateProfile (runTracker 2 [Request.mk 0 0 0, Request.mk 0 0 0, Request.mk 1 1 1]) =
      CalculateProfile (runTracker 2 [Request.mk 0 0 0, Request.mk 0 0 0]) := by
  decide

/-- Claim C8 (amended): recording a `(c+1)`-th sample overwrites the slot
holding the oldest stored sample, and the stored window — as a multiset —
after the `(c+1)`-th insert differs from the window after the first `c`
inserts whenever the new sample differs from the sample it replaced; the
snapshot (a truncated integer mean) may nevertheless coincide. -/
theorem C8_overwrite_oldest (cap : ℕ) (hc : 1 ≤ cap) (h : Request) (tl : List Request)
    (hlen : (h :: tl).length = cap) (s : Request) (hne : s ≠ h) :
    (runTracker cap (h :: tl)).buffer = h :: tl ∧
    (runTracker cap ((h :: tl) ++ [s])).buffer = s :: tl ∧
    Multiset.ofList (runTracker cap ((h :: tl) ++ [s])).buffer ≠
      Multiset.ofList (runTracker cap (h :: tl)).buffer := by
  obtain ⟨hcap, hsize, hlt, _⟩ := runTracker_inv cap hc (h :: tl)
  obtain ⟨hpos, hbuf⟩ := hlt (le_of_eq hlen)
  have hsz : (runTracker cap (h :: tl)).size = cap := by
    rw [hsize, hlen]; omega
  have hstep : (runTracker cap ((h :: tl) ++ [s])).buffer = s :: tl := by
    rw [runTracker_append, recordRequest, if_neg (by rw [hsz, hcap]; omega)]
    show (runTracker cap (h :: tl)).buffer.set (runTracker cap (h :: tl)).pos s = s :: tl
    rw [hbuf, hpos, List.set_cons_zero]
  refine ⟨hbuf, hstep, ?_⟩
  rw [hstep, hbuf]
  intro hcon
  have : s ::ₘ (tl : Multiset Request) = h ::ₘ (tl : Multiset Request) := by
    simpa using hcon
  exact hne ((Multiset.cons_inj_left _).mp this)

/-- Witness for the amended C8 at capacity 1. -/
theorem C8_overwrite_oldest_witness :
    (runTracker 1 [Request.mk 0 0 0]).buffer = [Request.mk 0 0 0] ∧
    (runTracker 1 [Request.mk 0 0 0, Request.mk 1 1 1]).buffer = [Request.mk 1 1 1] ∧
    Multiset.ofList (runTracker 1 [Request.mk 0 0 0, Request.mk 1 1 1]).buffer ≠
      Multiset.ofList (runTracker 1 [Request.mk 0 0 0]).buffer :=
  C8_overwrite_oldest 1 (by norm_num) (Request.mk 0 0 0) [] (by decide)
    (Request.mk 1 1 1) (by decide)

/-- The millisecond sleep requested by the chaff handler of the older
revision (`tracker.go`, `ServeHTTP` lines 179-184, `int64` arithmetic):
`rem := details.latencyMs - elapsed.Milliseconds(); if rem > 0 {
time.Sleep(rem ms) }` and otherwise no sleep. -/
def serveSleepMs (latencyMs elapsedMs : ℤ) : ℤ :=
  let rem := wrapI64 (latencyMs - elapsedMs)
  if 0 < rem then rem else 0

/-- The nanoseconds actually slept by
`func (t *Tracker) normalizeLatnecy(start time.Time, targetMs uint64)` of
the newer revision: `rem := targetMs - uint64(elapsed.Milliseconds())`
(`uint64` subtraction, wrapping), and if `rem > 0` then
`time.Sleep(time.Duration(rem) * time.Millisecond)` — the conversion
`time.Duration(rem)` reinterprets the `uint64` as `int64`, the
multiplication by `10^6` wraps in `int64`, and `time.Sleep` of a
non-positive duration returns immediately (sleeps 0). -/
def normalizeSleptNs (targetMs : ℕ) (elapsedMs : ℤ) : ℤ :=
  let e : ℕ := (elapsedMs % (U64 : ℤ)).toNat
  let rem : ℕ := subU64 targetMs e
  if 0 < rem then max 0 (wrapI64 (wrapI64 (toI64 rem) * 1000000)) else 0

/-- Claim C2: in both chaff-serving paths, after rendering the handler
sleeps for exactly `max 0 (latencyMs - elapsedMs)` milliseconds — in
particular no delay at all is added when rendering already took at least
the profile's mean latency, and the added sleep is never negative.  The
bounds (`2^63` for the older `int64` path, `2^43` ms, about 278 years,
for the newer path whose `uint64` wrap-around and `int64` duration
conversion would otherwise overflow) cover every value the program can
derive from wall-clock measurements. -/
theorem C2_latency_normalization (lat elapsed : ℤ) (target : ℕ) (e2 : ℤ) :
    (0 ≤ lat → lat < 9223372036854775808 → 0 ≤ elapsed → elapsed < 9223372036854775808 →
      serveSleepMs lat elapsed = max 0 (lat - elapsed)) ∧
    (target < 8796093022208 → 0 ≤ e2 → e2 < 8796093022208 →
      normalizeSleptNs target e2 = 1000000 * max 0 ((target : ℤ) - e2)) := by
  constructor
  · intro h1 h2 h3 h4
    have hw : wrapI64 (lat - elapsed) = lat - elapsed := by
      rw [wrapI64, Int.emod_eq_of_lt (by omega) (by omega)]
      omega
    rw [serveSleepMs]
    simp only [hw]
    by_cases hrem : 0 < lat - elapsed
    · rw [if_pos hrem]; omega
    · rw [if_neg hrem]; omega
  · intro h1 h2 h3
    have he : (e2 % (U64 : ℤ)).toNat = e2.toNat := by
      rw [Int.emod_eq_of_lt h2 (by rw [U64]; push_cast; omega)]
    have he2 : (e2.toNat : ℤ) = e2 := Int.toNat_of_nonneg h2
    have heb : e2.toNat < 8796093022208 := by omega
    rw [normalizeSleptNs]
    simp only [he]
    rcases Nat.lt_trichotomy e2.toNat target with hlt | heq | hgt
    · -- undershoot: a positive remaining delay is slept in full
      have hrem : subU64 target e2.toNat = target - e2.toNat := by
        rw [subU64, Nat.mod_eq_of_lt (show e2.toNat < U64 by rw [U64]; omega)]
        rw [show target + U64 - e2.toNat = (target - e2.toNat) + U64 by omega,
          Nat.add_mod_right, Nat.mod_eq_of_lt (by rw [U64]; omega)]
      rw [hrem, if_pos (by omega)]
      have ht1 : toI64 (target - e2.toNat) = ((target - e2.toNat : ℕ) : ℤ) := by
        rw [toI64, if_pos (by omega)]
      have hs : ((target - e2.toNat : ℕ) : ℤ) = (target : ℤ) - e2 := by omega
      have hw1 : wrapI64 ((target : ℤ) - e2) = (target : ℤ) - e2 := by
        rw [wrapI64]
        rw [Int.emod_eq_of_lt (by omega) (by omega)]
        omega
      have hw2 : wrapI64 (((target : ℤ) - e2) * 1000000) = ((target : ℤ) - e2) * 1000000 := by
        rw [wrapI64]
        rw [Int.emod_eq_of_lt (by nlinarith) (by nlinarith)]
        omega
      rw [ht1, hs, hw1, hw2]
      rw [max_eq_right (by nlinarith), max_eq_right (by omega)]
      ring
    · -- exactly on target: remainder is zero, no sleep
      have hrem : subU64 target e2.toNat = 0 := by
        rw [subU64, Nat.mod_eq_of_lt (show e2.toNat < U64 by rw [U64]; omega), heq,
          show target + U64 - target = U64 by omega, Nat.mod_self]
      rw [hrem, if_neg (by omega)]
      rw [max_eq_left (by omega)]
      ring
    · -- overshoot: the uint64 subtraction wraps to a huge value, whose
      -- int64 reinterpretation is negative, so time.Sleep adds no delay
      have hd : 0 < e2.toNat - target := by omega
      have hrem : subU64 target e2.toNat = U64 - (e2.toNat - target) := by
        rw [subU64, Nat.mod_eq_of_lt (show e2.toNat < U64 by rw [U64]; omega)]
        rw [show target + U64 - e2.toNat = U64 - (e2.toNat - target) by rw [U64]; omega]
        rw [Nat.mod_eq_of_lt (by rw [U64]; omega)]
      rw [hrem, if_pos (by rw [U64]; omega)]
      have ht1 : toI64 (U64 - (e2.toNat - target)) =
          ((target : ℤ) - e2.toNat) := by
        rw [toI64, if_neg (by rw [U64]; omega)]
        rw [U64]
        omega
      have hw0 : wrapI64 ((target : ℤ) - e2.toNat) = (target : ℤ) - e2.toNat := by
        rw [wrapI64]
        rw [Int.emod_eq_of_lt (by omega) (by omega)]
        omega
      have hw1 : wrapI64 (((target : ℤ) - e2.toNat) * 1000000) =
          ((target : ℤ) - e2.toNat) * 1000000 := by
        rw [wrapI64]
        rw [Int.emod_eq_of_lt (by nlinarith) (by nlinarith)]
        omega
      rw [ht1, hw0, hw1]
      rw [max_eq_left (by nlinarith), max_eq_left (by omega)]
      ring

/-- Witness for C2: a 5 ms target with 10 ms already elapsed adds no
delay in either revision, and a 7 ms target with 3 ms elapsed sleeps
exactly the missing 4 ms. -/
theorem C2_latency_normalization_witness :
    serveSleepMs 5 10 = max 0 (5 - 10) ∧
    normalizeSleptNs 5 10 = 1000000 * max 0 ((5 : ℤ) - 10) ∧
    normalizeSleptNs 7 3 = 1000000 * max 0 ((7 : ℤ) - 3) :=
  ⟨(C2_latency_normalization 5 10 5 10).1 (by norm_num) (by norm_num) (by norm_num)
      (by norm_num),
    (C2_latency_normalization 5 10 5 10).2 (by norm_num) (by norm_num) (by norm_num),
    (C2_latency_normalization 7 3 7 3).2 (by norm_num) (by norm_num) (by norm_num)⟩

/-- The pluggable rendering strategies shipped with the library
(`PlainResponder`, `JSONResponder`); a `none` argument models Go's
`nil` interface value. -/
inductive Responder where
  | plain : Responder
  | jsonR (fnId : ℕ) : Responder
deriving DecidableEq, Repr

/-- `DefaultCapacity = 100`. -/
def DefaultCapacity : ℕ := 100

/-- `func NewTracker(resp Responder, cap int) (*Tracker, error)` (newer
revision): rejects `cap < 1 || cap > DefaultCapacity`, then a nil
responder, and otherwise returns the fresh tracker (empty buffer, the
requested capacity, cursor 0) paired with the responder. -/
def NewTracker (resp : Option Responder) (cap : ℤ) : Except String (TrackerState × Responder) :=
  if cap < 1 ∨ (100 : ℤ) < cap then
    Except.error "cap must be 1 <= cap <= 100"
  else
    match resp with
    | none => Except.error "responder must be non-nil"
    | some r => Except.ok (newTrackerState cap.toNat, r)

/-- Claim C6: `NewTracker` returns a tracker exactly when the capacity is
in `[1, 100]` and a responder is supplied, and an error exactly when the
capacity is out of range or the responder is nil. -/
theorem C6_newTracker_validation (resp : Option Responder) (cap : ℤ) :
    ((∃ t, NewTracker resp cap = Except.ok t) ↔ (1 ≤ cap ∧ cap ≤ 100 ∧ resp.isSome)) ∧
    ((∃ e, NewTracker resp cap = Except.error e) ↔ (cap < 1 ∨ 100 < cap ∨ resp = none)) := by
  rcases resp with _ | r
  · by_cases h : cap < 1 ∨ (100 : ℤ) < cap
    · rw [NewTracker, if_pos h]
      refine ⟨⟨fun ⟨t, ht⟩ => (by cases ht), fun ⟨_, _, hsome⟩ => (by simp at hsome)⟩,
        ⟨fun _ => Or.inr (Or.inr rfl), fun _ => ⟨_, rfl⟩⟩⟩
    · rw [NewTracker, if_neg h]
      refine ⟨⟨fun ⟨t, ht⟩ => (by cases ht), fun ⟨_, _, hsome⟩ => (by simp at hsome)⟩,
        ⟨fun _ => Or.inr (Or.inr rfl), fun _ => ⟨_, rfl⟩⟩⟩
  · by_cases h : cap < 1 ∨ (100 : ℤ) < cap
    · rw [NewTracker, if_pos h]
      refine ⟨⟨fun ⟨t, ht⟩ => (by cases ht), fun ⟨h1, h2, _⟩ => (absurd h (by omega))⟩,
        ⟨fun _ => h.elim Or.inl (fun hh => Or.inr (Or.inl hh)), fun _ => ⟨_, rfl⟩⟩⟩
    · rw [NewTracker, if_neg h]
      push_neg at h
      refine ⟨⟨fun _ => ⟨h.1, h.2, rfl⟩, fun _ => ⟨_, rfl⟩⟩,
        ⟨fun ⟨e, he⟩ => (by cases he), fun hx => ?_⟩⟩
      rcases hx with h1 | h2 | hco
      · exact absurd h.1 (by omega)
      · exact absurd h.2 (by omega)
      · cases hco

/-- The outcome of an operation under Go's channel semantics: a normal
result, a runtime panic, or blocking forever. -/
inductive GoResult (α : Type) where
  | ok (value : α)
  | panicked (msg : String)
  | blocked
deriving DecidableEq, Repr

/-- The channel-lifecycle state of one `Tracker`: the buffered contents
and capacity of `t.ch`, the closed flags of `t.ch` and `t.done`, whether
the `updater` goroutine is still running, and the rolling window. -/
structure LifeState where
  chQueue : List Request
  chCap : ℕ
  chClosed : Bool
  doneClosed : Bool
  updaterRunning : Bool
  window : TrackerState
deriving DecidableEq, Repr

/-- The lifecycle state produced by `NewTracker`: an empty buffered
channel of the tracker's capacity, both channels open, the `updater`
goroutine running. -/
def initLife (cap : ℕ) : LifeState :=
  { chQueue := [], chCap := cap, chClosed := false, doneClosed := false,
    updaterRunning := true, window := newTrackerState cap }

/-- `func (t *Tracker) Close()`:
`t.done <- struct{}{}; close(t.ch); close(t.done)` under Go channel
semantics.  A send on the closed `done` channel panics; with no updater
left to receive, the unbuffered send blocks forever; otherwise the
updater consumes the signal and returns, and both channels are closed. -/
def closeTracker (s : LifeState) : GoResult LifeState :=
  if s.doneClosed then GoResult.panicked "send on closed channel"
  else if ¬ s.updaterRunning then GoResult.blocked
  else if s.chClosed then GoResult.panicked "close of closed channel"
  else GoResult.ok { s with updaterRunning := false, chClosed := true, doneClosed := true }

/-- The sample hand-off in `Track`/`HandleTrack`:
`select { case t.ch <- newRequest(...): default: }`.  A send on a closed
channel panics even inside `select`; otherwise the select either
delivers to the buffered channel (when there is room) or takes the
`default` branch, dropping the sample; it can never block.  The returned
`Bool` reports whether the sample was accepted. -/
def enqueue (s : LifeState) (r : Request) : GoResult (LifeState × Bool) :=
  if s.chClosed then GoResult.panicked "send on closed channel"
  else if s.chQueue.length < s.chCap then
    GoResult.ok ({ s with chQueue := s.chQueue ++ [r] }, true)
  else GoResult.ok (s, false)

/-- The lifecycle state after the first (successful) `Close` of a
fresh tracker of capacity 10: both channels closed, updater stopped. -/
def closedLife10 : LifeState :=
  { chQueue := [], chCap := 10, chClosed := true, doneClosed := true,
    updaterRunning := false, window := newTrackerState 10 }

/-- Counterexample to claim C3: after one successful `Close`, a second
`Close` panics (send on the closed `done` channel), and an enqueue
through the tracking middleware also panics (send on the closed `ch`
channel) — so post-close operations do crash the process. -/
theorem C3_counterexample :
    closeTracker (initLife 10) = GoResult.ok closedLife10 ∧
    closeTracker closedLife10 = GoResult.panicked "send on closed channel" ∧
    enqueue closedLife10 ⟨1, 2, 3⟩ = GoResult.panicked "send on closed channel" :=
  ⟨rfl, rfl, rfl⟩

/-- Claim C3 (amended): `Close` is not idempotent and the queue is not
safe after close — the first `Close` succeeds, but a second `Close`
panics on its send to the already-closed `done` channel, and any
middleware enqueue after `Close` panics on its send to the closed sample
channel.  Only a single `Close` with no subsequent enqueues is safe. -/
theorem C3_close_not_idempotent (cap : ℕ) (r : Request) :
    ∃ s1, closeTracker (initLife cap) = GoResult.ok s1 ∧
      closeTracker s1 = GoResult.panicked "send on closed channel" ∧
      enqueue s1 r = GoResult.panicked "send on closed channel" :=
  ⟨_, rfl, rfl, rfl⟩

/-- Claim C7: handing a sample to the ingestion queue before close never
blocks and never raises an error — the outcome is always a normal return
leaving the rolling window untouched — and when the bounded queue is
full the sample is silently discarded with the whole state unchanged. -/
theorem C7_enqueue_nonblocking (s : LifeState) (r : Request) (hopen : s.chClosed = false) :
    (∃ s' accepted, enqueue s r = GoResult.ok (s', accepted) ∧ s'.window = s.window) ∧
    (s.chCap ≤ s.chQueue.length → enqueue s r = GoResult.ok (s, false)) := by
  constructor
  · by_cases h : s.chQueue.length < s.chCap
    · exact ⟨{ s with chQueue := s.chQueue ++ [r] }, true,
        by rw [enqueue, if_neg (by simp [hopen]), if_pos h], rfl⟩
    · exact ⟨s, false, by rw [enqueue, if_neg (by simp [hopen]), if_neg h], rfl⟩
  · intro hfull
    rw [enqueue, if_neg (by simp [hopen]), if_neg (by omega)]

/-- A lifecycle state whose single-slot sample queue is already full. -/
def fullLife1 : LifeState :=
  { chQueue := [⟨1, 1, 1⟩], chCap := 1, chClosed := false, doneClosed := false,
    updaterRunning := true, window := newTrackerState 1 }

/-- Witness for C7: a full single-slot queue silently drops the sample
and leaves the state unchanged. -/
theorem C7_enqueue_nonblocking_witness :
    enqueue fullLife1 ⟨2, 2, 2⟩ = GoResult.ok (fullLife1, false) :=
  (C7_enqueue_nonblocking fullLife1 ⟨2, 2, 2⟩ rfl).2 (by decide)

/-- The base64 standard alphabet used by Go's
`base64.StdEncoding.EncodeToString`. -/
def base64Alphabet : List Char :=
  "ABCDEFGHIJKLMNOPQRSTUVWXYZabcdefghijklmnopqrstuvwxyz0123456789+/".toList

/-- The alphabet character for a 6-bit value. -/
def b64char (n : ℕ) : Char := base64Alphabet.getD n 'A'

/-- `base64.StdEncoding.EncodeToString`: each group of 3 input bytes
becomes 4 alphabet characters; a trailing group of 1 or 2 bytes is
padded with `=` to 4 characters. -/
def base64Encode : List ℕ → List Char
  | [] => []
  | [b1] => [b64char (b1 / 4), b64char (b1 % 4 * 16), '=', '=']
  | [b1, b2] => [b64char (b1 / 4), b64char (b1 % 4 * 16 + b2 / 16), b64char (b2 % 16 * 4), '=']
  | b1 :: b2 :: b3 :: rest =>
    b64char (b1 / 4) :: b64char (b1 % 4 * 16 + b2 / 16) ::
      b64char (b2 % 16 * 4 + b3 / 64) :: b64char (b3 % 64) :: base64Encode rest

/-- `func RandomData(size uint64) string` (newer revision; identical to
the older unexported `randomData`): shrink the size by the base64
overhead (`size = 3 * size / 4`, where the multiplication `3 * size`
wraps in `uint64` before the division), fill a buffer of that many bytes
from the random source (modelled by the oracle `rnd`), and base64-encode
it.  (The `rand.Read` error branch, which returns a fixed status text,
is unreachable for the modelled always-available source.) -/
def RandomData (rnd : ℕ → ℕ) (size : ℕ) : List Char :=
  base64Encode ((List.range (3 * size % U64 / 4)).map rnd)

/-- The number of bytes `base64.StdEncoding.DecodeString` recovers from a
well-formed base64 string: 3 bytes per 4-character group, minus one byte
per padding `=` character. -/
def base64DecodedLen (s : List Char) : ℕ := 3 * (s.length / 4) - s.count '='

theorem b64char_ne_pad (n : ℕ) : b64char n ≠ '=' := by
  have halpha : ∀ c ∈ base64Alphabet, c ≠ '=' := by decide
  rw [b64char, List.getD_eq_getElem?_getD]
  rcases h : base64Alphabet[n]? with _ | c
  · simp
  · have hc : c ∈ base64Alphabet := List.getElem?_mem h
    simpa using halpha c hc

theorem length_base64Encode : ∀ bs : List ℕ,
    (base64Encode bs).length = 4 * ((bs.length + 2) / 3)
  | [] => by simp [base64Encode]
  | [b1] => by simp [base64Encode]
  | [b1, b2] => by simp [base64Encode]
  | b1 :: b2 :: b3 :: rest => by
    have ih := length_base64Encode rest
    simp only [base64Encode, List.length_cons, ih]
    omega

theorem count_pad_base64Encode : ∀ bs : List ℕ,
    (base64Encode bs).count '=' = (3 - bs.length % 3) % 3
  | [] => by simp [base64Encode]
  | [b1] => by
    simp [base64Encode, List.count_cons, b64char_ne_pad]
  | [b1, b2] => by
    simp [base64Encode, List.count_cons, b64char_ne_pad]
  | b1 :: b2 :: b3 :: rest => by
    have ih := count_pad_base64Encode rest
    simp [base64Encode, List.count_cons, b64char_ne_pad, ih]
    omega

/-- Round trip: decoding the base64 encoding of `bs` yields exactly
`bs.length` bytes. -/
theorem decodedLen_base64Encode (bs : List ℕ) :
    base64DecodedLen (base64Encode bs) = bs.length := by
  rw [base64DecodedLen, length_base64Encode, count_pad_base64Encode]
  omega

theorem length_RandomData (rnd : ℕ → ℕ) (size : ℕ) :
    (RandomData rnd size).length = 4 * ((3 * size % U64 / 4 + 2) / 3) := by
  rw [RandomData, length_base64Encode, List.length_map, List.length_range]

theorem decodedLen_RandomData (rnd : ℕ → ℕ) (size : ℕ) :
    base64DecodedLen (RandomData rnd size) = 3 * size % U64 / 4 := by
  rw [RandomData, decodedLen_base64Encode, List.length_map, List.length_range]

/-- Counterexample to claim C5: at target size `N = 10000` the decoded
byte length of `RandomData` is `3 * 10000 / 4 = 7500` — only 75% of `N`,
far outside the claimed 1% band (the encoded length, not the decoded
length, approximates `N`). -/
theorem C5_counterexample :
    base64DecodedLen (RandomData (fun _ => 0) 10000) = 7500 ∧
    ¬(99 * 10000 ≤ 100 * base64DecodedLen (RandomData (fun _ => 0) 10000)) := by
  have h : base64DecodedLen (RandomData (fun _ => 0) 10000) = 7500 := by
    rw [decodedLen_RandomData, U64]
  exact ⟨h, by rw [h]; omega⟩

/-- Claim C5 (amended): `RandomData 0` is the empty string; for every
target size `N` whose tripling does not wrap in `uint64`
(`3 * N < 2^64`, i.e. `N ≤ 6148914691236517205` — about 6.1 EB, so every
realizable response size), `RandomData N` base64-encodes exactly
`3 * N / 4` random bytes, so its decoded byte length is exactly
`3 * N / 4`; it is the *encoded* payload length that approximates `N` —
it always lies in `[N - 1, N + 2]` and is therefore within 1% of `N` for
all such `N ≥ 300`.  (Beyond that bound the `uint64` product `3 * size`
wraps and the payload collapses accordingly.) -/
theorem C5_randomData_sizing (rnd : ℕ → ℕ) (N : ℕ) (hN : 3 * N < U64) :
    RandomData rnd 0 = [] ∧
    base64DecodedLen (RandomData rnd N) = 3 * N / 4 ∧
    N - 1 ≤ (RandomData rnd N).length ∧ (RandomData rnd N).length ≤ N + 2 ∧
    (300 ≤ N → 99 * N ≤ 100 * (RandomData rnd N).length ∧
      100 * (RandomData rnd N).length ≤ 101 * N) := by
  have hmod : 3 * N % U64 = 3 * N := Nat.mod_eq_of_lt hN
  have hlen := length_RandomData rnd N
  rw [hmod] at hlen
  have hdec := decodedLen_RandomData rnd N
  rw [hmod] at hdec
  refine ⟨rfl, hdec, by omega, by omega, fun h3 => ⟨by omega, by omega⟩⟩

/-- Witness for the amended C5 at `N = 400`: the encoded payload is 400
characters and decodes to exactly 300 bytes. -/
theorem C5_randomData_sizing_witness :
    base64DecodedLen (RandomData (fun _ => 7) 400) = 3 * 400 / 4 ∧
    400 - 1 ≤ (RandomData (fun _ => 7) 400).length ∧
    (RandomData (fun _ => 7) 400).length ≤ 402 ∧
    99 * 400 ≤ 100 * (RandomData (fun _ => 7) 400).length :=
  ⟨(C5_randomData_sizing (fun _ => 7) 400 (by rw [U64]; norm_num)).2.1,
    (C5_randomData_sizing (fun _ => 7) 400 (by rw [U64]; norm_num)).2.2.1,
    (C5_randomData_sizing (fun _ => 7) 400 (by rw [U64]; norm_num)).2.2.2.1,
    ((C5_randomData_sizing (fun _ => 7) 400 (by rw [U64]; norm_num)).2.2.2.2 (by norm_num)).1⟩

/-- `Header = "X-Chaff"`. -/
def Header : String := "X-Chaff"

/-- `contentHeaderSize = uint64(31)`: the byte count the JSON responder
budgets for the `Content-Type: application/json` header. -/
def contentHeaderSize : ℕ := 31

/-- `RandomData` as a Go string. -/
def RandomDataStr (rnd : ℕ → ℕ) (size : ℕ) : String :=
  String.mk (RandomData rnd size)

/-- One observable operation on an `http.ResponseWriter`, in the order
the handler performs them: committing a status code (`WriteHeader`),
adding or setting an entry of the header map, or writing body bytes. -/
inductive WEvent where
  | wroteHeader (code : ℕ)
  | addedHeader (name value : String)
  | setHeader (name value : String)
  | wroteBody (data : String)
deriving DecidableEq, Repr

/-- The ResponseWriter operations of the older revision's chaff handler
(`tracker.go`, `ServeHTTP` lines 164-177): `w.WriteHeader(200)`, then the
optional `X-Chaff` header of random data, then the optional random body. -/
def serveHTTPEvents (rndH rndB : ℕ → ℕ) (details : Request) : List WEvent :=
  [WEvent.wroteHeader 200]
    ++ (if 0 < details.headerSize then
        [WEvent.addedHeader Header (RandomDataStr rndH details.headerSize)] else [])
    ++ (if 0 < details.bodySize then
        [WEvent.wroteBody (RandomDataStr rndB details.bodySize)] else [])

/-- `func (pr *PlainResponder) Write(headerSize, bodySize uint64, w, r)`:
status 200 first, then the optional `X-Chaff` random header, then the
optional random body; the write error of the underlying sink (always
absent for the modelled sink) is the only error source. -/
def plainResponderWrite (rndH rndB : ℕ → ℕ) (headerSize bodySize : ℕ) :
    List WEvent × Except String Unit :=
  ([WEvent.wroteHeader 200]
      ++ (if 0 < headerSize then
          [WEvent.addedHeader Header (RandomDataStr rndH headerSize)] else [])
      ++ (if 0 < bodySize then [WEvent.wroteBody (RandomDataStr rndB bodySize)] else []),
    Except.ok ())

/-- The JSON error envelope written on marshal failure:
`fmt.Fprintf(w, "{\"error\": \"%v\"}", err.Error())`. -/
def errorBody (e : String) : String := "\x7b\"error\": \"" ++ e ++ "\"\x7d"

/-- `func (j *JSONResponder) Write(headerSize, bodySize uint64, w, r)`:
when `bodySize > 0` the random payload is passed through the
caller-supplied transform and marshalled (modelled by the `marshal`
oracle); on marshal failure the handler writes status 500, sets the
JSON content type and emits the structured JSON error body, returning
the error as an ordinary value; otherwise status 200 is committed,
the `X-Chaff` header (shrunk by the content-type budget and the header
name length, in wrapping `uint64` arithmetic) is optionally added, the
content type is set and the marshalled body is written. -/
def jsonResponderWrite (rndH rndB : ℕ → ℕ) (marshal : String → Except String String)
    (headerSize bodySize : ℕ) : List WEvent × Except String Unit :=
  match (if 0 < bodySize then marshal (RandomDataStr rndB bodySize) else Except.ok "") with
  | Except.error e =>
      ([WEvent.wroteHeader 500, WEvent.setHeader "Content-Type" "application/json",
        WEvent.wroteBody (errorBody e)], Except.error e)
  | Except.ok bodyData =>
      ([WEvent.wroteHeader 200]
          ++ (if contentHeaderSize < headerSize then
              [WEvent.addedHeader Header
                (RandomDataStr rndH (subU64 (subU64 headerSize contentHeaderSize) 7))]
            else [])
          ++ [WEvent.setHeader "Content-Type" "application/json",
            WEvent.wroteBody bodyData],
        Except.ok ())

/-- Claim C9: when the JSON responder's body serialization fails, the
response carries status 500 and the structured JSON error body, status
200 is never committed, and the failure is returned as an ordinary error
value from the (total) response path rather than escaping it; the
tracker's state does not appear in the path at all, so only this one
request is affected. -/
theorem C9_json_marshal_failure (rndH rndB : ℕ → ℕ)
    (marshal : String → Except String String) (headerSize bodySize : ℕ) (e : String)
    (hbs : 0 < bodySize) (hm : marshal (RandomDataStr rndB bodySize) = Except.error e) :
    jsonResponderWrite rndH rndB marshal headerSize bodySize =
      ([WEvent.wroteHeader 500, WEvent.setHeader "Content-Type" "application/json",
        WEvent.wroteBody (errorBody e)], Except.error e) ∧
    WEvent.wroteHeader 200 ∉ (jsonResponderWrite rndH rndB marshal headerSize bodySize).1 := by
  have h1 : jsonResponderWrite rndH rndB marshal headerSize bodySize =
      ([WEvent.wroteHeader 500, WEvent.setHeader "Content-Type" "application/json",
        WEvent.wroteBody (errorBody e)], Except.error e) := by
    rw [jsonResponderWrite, if_pos hbs, hm]
  refine ⟨h1, ?_⟩
  rw [h1]
  simp

/-- Witness for C9: a marshal oracle that always fails produces exactly
the 500 status and the JSON error envelope. -/
theorem C9_json_marshal_failure_witness :
    jsonResponderWrite (fun _ => 0) (fun _ => 0) (fun _ => Except.error "boom") 40 5 =
      ([WEvent.wroteHeader 500, WEvent.setHeader "Content-Type" "application/json",
        WEvent.wroteBody (errorBody "boom")], Except.error "boom") :=
  (C9_json_marshal_failure (fun _ => 0) (fun _ => 0) (fun _ => Except.error "boom")
    40 5 "boom" (by norm_num) rfl).1

/-- Claim C10: in every built-in chaff-rendering path — the older
revision's plain handler, `PlainResponder.Write`, and the
`JSONResponder.Write` success path (any marshal oracle that returns a
value) — the very first ResponseWriter operation is committing status
200, so the status is committed before the `X-Chaff` filler header is
added to the header map and before any filler body bytes are written. -/
theorem C10_status_before_filler (rndH rndB : ℕ → ℕ) (details : Request)
    (headerSize bodySize : ℕ) (f : String → String) :
    (serveHTTPEvents rndH rndB details).head? = some (WEvent.wroteHeader 200) ∧
    ((plainResponderWrite rndH rndB headerSize bodySize).1).head? =
      some (WEvent.wroteHeader 200) ∧
    ((jsonResponderWrite rndH rndB (fun s => Except.ok (f s)) headerSize bodySize).1).head? =
      some (WEvent.wroteHeader 200) := by
  refine ⟨rfl, rfl, ?_⟩
  by_cases hbs : 0 < bodySize
  · rw [jsonResponderWrite, if_pos hbs]
    rfl
  · rw [jsonResponderWrite, if_neg hbs]
    rfl

end Chaff
